import Mathlib

/-
Verification of the navigation and view-state engine of the `rrr` directory
browser, shallowly embedded from `src/state.rs` and `src/main.rs`.

Modelling conventions:
* a filesystem path (`PathBuf`) is the list of its components;
* the filesystem is a partial map from paths to raw entry listings, where
  `none` models an `io::Error` coming out of `read_dir`;
* `HashMap` is an association list with insert-or-replace update;
* `usize` is `Nat`; `saturating_sub` is truncated `Nat` subtraction; a plain
  `-=` that can underflow is modelled in `Option`, `none` standing for the
  panic of a checked build (a release build wraps instead, and the wrapped
  value is immediately clamped back down, see `Context.cursor_down`);
* itertools' `sorted_unstable_by*` in `Context::read` sorts a collected
  `Vec`; each pass is modelled by the stable `List.insertionSort`, fixing the
  order among equal keys to the stable one — the order that the stable
  `sorted_by` / `sorted_by_key` passes of `Context::directory_iter` in
  `main.rs` (the stable twin of `Context::read`) produce.
-/

abbrev FsPath : Type := List String

/-- An entry of a directory listing: final path component and whether the
entry resolves to a directory (`DirEntry` as the code uses it). -/
structure Entry where
  name : String
  is_dir : Bool
  deriving DecidableEq

/-- The filesystem collaborator: `read_dir` returning the immediate children
of a path, or `none` for an `io::Error`. -/
abbrev Fs : Type := FsPath → Option (List Entry)

/-- Byte-wise lexicographic order on character lists (Unicode scalar values
are ordered the same way as their UTF-8 encodings, so this is exactly the
order `Ord` on Rust byte strings gives). -/
def charsLe : List Char → List Char → Bool
  | [], _ => true
  | _ :: _, [] => false
  | a :: as, b :: bs =>
    if a.toNat < b.toNat then true
    else if b.toNat < a.toNat then false
    else charsLe as bs

/-- Byte-wise lexicographic order on strings: `OsString::cmp`. -/
def strLe (a b : String) : Bool := charsLe a.data b.data

/-- `str::starts_with(".")`: the first character is `'.'`. -/
def startsWithDot (s : String) : Bool :=
  match s.data with
  | [] => false
  | c :: _ => c == '.'

/-- The order `false < true` on `Bool` (how Rust's `Ord` on `bool` sorts
keys): `x ≤ y` iff `!x || y`. -/
def boolLe (x y : Bool) : Bool := !x || y

/-- `entry_not_hidden` (state.rs): the entry's file name does not start
with `"."`. -/
def entry_not_hidden (entry : Entry) : Bool :=
  !(startsWithDot entry.name)

/-- Comparator of the first sorting pass of `Context::read`:
`first.file_name().cmp(&second.file_name())`, byte-wise order on names. -/
def byName (a b : Entry) : Prop := strLe a.name b.name = true

/-- Key order of the second pass, `sorted_unstable_by_key(entry_not_hidden)`:
entries whose key is `false` — the hidden ones — sort first. -/
def byNotHidden (a b : Entry) : Prop :=
  boolLe (entry_not_hidden a) (entry_not_hidden b) = true

/-- Key order of the third pass,
`sorted_unstable_by_key(|entry| !entry.path().is_dir())`: directories have
key `false` and sort first. -/
def byNotDir (a b : Entry) : Prop := boolLe (!a.is_dir) (!b.is_dir) = true

instance : DecidableRel byName := fun _ _ =>
  inferInstanceAs (Decidable (_ = true))

instance : DecidableRel byNotHidden := fun _ _ =>
  inferInstanceAs (Decidable (_ = true))

instance : DecidableRel byNotDir := fun _ _ =>
  inferInstanceAs (Decidable (_ = true))

/-- The pure part of `Context::read` (state.rs) / `Context::directory_iter`
(main.rs): filter by the hidden predicate, then the three sorting passes —
by name, then by `entry_not_hidden`, then by `!is_dir`. -/
def readEntries (show_hidden : Bool) (raw : List Entry) : List Entry :=
  ((((raw.filter fun entry => entry_not_hidden entry || show_hidden)
    ).insertionSort byName
    ).insertionSort byNotHidden
    ).insertionSort byNotDir


/-- Association-list lookup, modelling `HashMap::get`. -/
def alookup {β : Type} (l : List (FsPath × β)) (k : FsPath) : Option β :=
  match l with
  | [] => none
  | (k2, v) :: rest => if k2 = k then some v else alookup rest k

/-- Association-list insert-or-replace, modelling `HashMap::insert` and
mutation through `HashMap::get_mut`. -/
def aupdate {β : Type} (l : List (FsPath × β)) (k : FsPath) (v : β) :
    List (FsPath × β) :=
  match l with
  | [] => [(k, v)]
  | (k2, v2) :: rest =>
    if k2 = k then (k2, v) :: rest else (k2, v2) :: aupdate rest k v

/-- Per-directory memory (`Buffer` in state.rs): remembered cursor, scroll,
hidden flag and marks for one directory. -/
structure Buffer where
  cursor : Nat
  scroll : Nat
  show_hidden : Bool
  marked : List (FsPath × Bool)
  deriving DecidableEq

/-- `Buffer::flip`: `self.marked.entry(path).or_insert(false)` then negate the
entry in place (an absent path is inserted as `false` and flipped to
`true`). -/
def Buffer.flip (b : Buffer) (path : FsPath) : Buffer :=
  match alookup b.marked path with
  | some mark => { b with marked := aupdate b.marked path (!mark) }
  | none => { b with marked := aupdate b.marked path true }

/-- The drawing area (`tui::layout::Rect`); only its height is used by the
core. -/
structure Rect where
  height : Nat
  deriving DecidableEq

/-- A pane (`Context` in state.rs). -/
structure Context where
  cursor : Nat
  scroll : Nat
  terminal_size : Rect
  current_dir : FsPath
  directory : List Entry
  buffers : List (FsPath × Buffer)
  deriving DecidableEq

namespace Context

/-- `Context::height`: `terminal_size.height.saturating_sub(3)`. -/
def height (c : Context) : Nat := c.terminal_size.height - 3

/-- `Context::show_hidden`: the remembered flag of the current directory's
buffer, `false` when no buffer exists. -/
def show_hidden (c : Context) : Bool :=
  ((alookup c.buffers c.current_dir).map Buffer.show_hidden).getD false

/-- `Context::save_buffer`: store the pane's cursor/scroll/hidden flag into
the buffer of `current_dir`, creating it (with empty marks) when absent and
keeping its marks when present. -/
def save_buffer (c : Context) : Context :=
  let sh := c.show_hidden
  match alookup c.buffers c.current_dir with
  | some b =>
    let b2 : Buffer := ⟨c.cursor, c.scroll, sh, b.marked⟩
    { c with buffers := aupdate c.buffers c.current_dir b2 }
  | none =>
    let b2 : Buffer := ⟨c.cursor, c.scroll, sh, []⟩
    { c with buffers := aupdate c.buffers c.current_dir b2 }

/-- `Context::restore_buffer`: restore cursor/scroll from the buffer of
`current_dir`; when absent, reset them to 0 and immediately `save_buffer`
(the "ugly hack to make marking work"). -/
def restore_buffer (c : Context) : Context :=
  match alookup c.buffers c.current_dir with
  | some state => { c with cursor := state.cursor, scroll := state.scroll }
  | none => save_buffer { c with cursor := 0, scroll := 0 }

/-- `Context::view`: `directory.iter().skip(scroll).take(height+1)`. -/
def view (c : Context) : List Entry :=
  (c.directory.drop c.scroll).take (c.height + 1)

/-- `Context::target`: `view().skip(cursor).next()`, the entry at index
`cursor` of the visible window. -/
def target (c : Context) : Option Entry :=
  c.view[c.cursor]?

/-- `Context::clamp_cursor`: when there is no target, reset `scroll` to 0 and
set `cursor` to `view().count().saturating_sub(1)` (computed after the
scroll reset). -/
def clamp_cursor (c : Context) : Context :=
  if c.target.isNone then
    let c2 := { c with scroll := 0 }
    { c2 with cursor := c2.view.length - 1 }
  else c

/-- `Context::target_dir`: the file name of the target if it is a directory,
otherwise the `bail!` error (modelled as `none`). -/
def target_dir (c : Context) : Option String :=
  match c.target with
  | some target => if target.is_dir then some target.name else none
  | none => none

/-- `Context::cursor_up`. -/
def cursor_up (c : Context) (amount : Nat) : Context :=
  if c.cursor < amount ∧ 0 < c.scroll then
    { c with scroll := c.scroll - 10, cursor := c.cursor + 10 }
  else
    { c with cursor := c.cursor - amount }

/-- `Context::cursor_down`.  The paging branch runs `self.cursor -= 10`,
which underflows when `cursor < 10`: `none` models that underflow (the panic
of a checked build; a release build wraps, and the wrapped value is clamped
back to `amount2` right after, but `scroll` has already been pushed past the
listing).  After either branch the cursor is clamped to
`view().count().saturating_sub(1)`. -/
def cursor_down (c : Context) (amount : Nat) : Option Context :=
  let step :=
    if c.cursor + amount > c.height then
      if c.cursor < 10 then none
      else some { c with cursor := c.cursor - 10, scroll := c.scroll + 10 }
    else some { c with cursor := c.cursor + amount }
  step.map fun c2 =>
    let amount2 := c2.view.length - 1
    if c2.cursor > amount2 then { c2 with cursor := amount2 } else c2

/-- `Context::is_marked`: whether `path` is marked in the buffer of the
current directory (`false` when no buffer or no entry for the path). -/
def is_marked (c : Context) (path : FsPath) : Bool :=
  match alookup c.buffers c.current_dir with
  | some buffer => (alookup buffer.marked path).getD false
  | none => false

/-- `Context::read`, with the filesystem read made explicit: list the current
directory and apply the filter and the three sorting passes. -/
def read (fs : Fs) (c : Context) : Option (List Entry) :=
  (fs c.current_dir).map fun raw => readEntries c.show_hidden raw

/-- `Context::read_directory`: `self.directory = self.read()?.collect()`.
On a read error (`none`) nothing is assigned. -/
def read_directory (fs : Fs) (c : Context) : Option Context :=
  (c.read fs).map fun d => { c with directory := d }

end Context

/-- `Mode` (state.rs). -/
inductive Mode
  | Normal
  | Command
  deriving DecidableEq

/-- The pane set (`Views` in state.rs): mode, active index, command text and
the fixed array `[Context; 4]` (modelled as a list that has length 4 in
every state the program builds). -/
structure Views where
  mode : Mode
  index : Nat
  command : String
  contexts : List Context
  deriving DecidableEq

/-- Result of a `Views` operation: `panicked` models an out-of-range array
index in `self.contexts[self.index]`; `ioError` carries the state at the
moment a read error is propagated by `?`. -/
inductive SwitchResult
  | panicked
  | ioError (views : Views)
  | ok (views : Views)
  deriving DecidableEq

/-- `Views::index` (state.rs): assign `self.index = index`, then run
`read_directory` on `current_context()`, i.e. `&mut self.contexts[self.index]`
— a raw array index that panics when `index` is out of range. -/
def Views.indexOp (fs : Fs) (v : Views) (i : Nat) : SwitchResult :=
  let v2 := { v with index := i }
  match v2.contexts[i]? with
  | none => .panicked
  | some c =>
    match c.read_directory fs with
    | none => .ioError v2
    | some c2 => .ok { v2 with contexts := v2.contexts.set i c2 }

/-- The `Key::Left` handler of `main` (main.rs): `save_buffer`, pop the last
path component, `read_directory()?`, `restore_buffer`.  The returned flag is
`true` when the read error is propagated by `?` — at that point
`current_dir` has already been popped and is not rolled back. -/
def key_left (fs : Fs) (c : Context) : Context × Bool :=
  let c1 := c.save_buffer
  let c2 := { c1 with current_dir := c1.current_dir.dropLast }
  match c2.read_directory fs with
  | some c3 => (c3.restore_buffer, false)
  | none => (c2, true)

/-- The `Key::Right` handler of `main` (main.rs): when `target_dir` succeeds,
`save_buffer`, push the target name, `read_directory()?`, `restore_buffer`;
when `target_dir` fails the whole body is skipped (`if let Ok(..)`).  The
returned flag is `true` when the read error is propagated by `?`. -/
def key_right (fs : Fs) (c : Context) : Context × Bool :=
  match c.target_dir with
  | some name =>
    let c1 := c.save_buffer
    let c2 := { c1 with current_dir := c1.current_dir ++ [name] }
    match c2.read_directory fs with
    | some c3 => (c3.restore_buffer, false)
    | none => (c2, true)
  | none => (c, false)

/-- The three-key order that `Context::read` actually produces: directories
before files (third pass); within each of those groups entries with
`entry_not_hidden = false` — the HIDDEN ones — before the non-hidden ones
(second pass, key `false < true`); and within each sub-group names in
byte-wise lexicographic order (first pass, kept among ties by stability). -/
def entryOrder (a b : Entry) : Prop :=
  byNotDir a b ∧
    (byNotDir b a → byNotHidden a b ∧ (byNotHidden b a → byName a b))

/-- The ordering claimed by the specification: directories before files;
within each group NON-hidden entries before hidden ones; then names in
byte-wise lexicographic order. -/
def specEntryOrder (a b : Entry) : Prop :=
  byNotDir a b ∧
    (byNotDir b a →
      boolLe (startsWithDot a.name) (startsWithDot b.name) = true ∧
        (boolLe (startsWithDot b.name) (startsWithDot a.name) = true →
          byName a b))

/-- Scenario A of the specification: `.git` (dir), `README.md` (file),
`src` (dir), `.env` (file). -/
def scenarioA : List Entry :=
  [⟨".git", true⟩, ⟨"README.md", false⟩, ⟨"src", true⟩, ⟨".env", false⟩]

instance : DecidableRel entryOrder := fun a b => by
  unfold entryOrder; infer_instance

instance : DecidableRel specEntryOrder := fun a b => by
  unfold specEntryOrder; infer_instance

/-- Pane used by the C8 witness: the sole (file) entry is targeted. -/
def c8W : Context := ⟨0, 0, ⟨10⟩, [], [⟨"f", false⟩], []⟩

/-- A filesystem on which every read fails. -/
def fsNone : Fs := fun _ => none

/-- Filesystem of the C2 counterexample: only `/home/user` is readable. -/
def c2Fs : Fs := fun p => if p = ["home", "user"] then some [] else none

/-- Pane of the C2 counterexample, sitting in `/home/user`. -/
def c2Ctx : Context := ⟨0, 0, ⟨10⟩, ["home", "user"], [], []⟩

/-- Pane for the C2 witness: in `/home`, targeting child directory `b`. -/
def c2W : Context := ⟨0, 0, ⟨10⟩, ["home"], [⟨"b", true⟩], []⟩

/-- Filesystem for the C2 witness: only `/home` is readable. -/
def c2WFs : Fs := fun p => if p = ["home"] then some [⟨"b", true⟩] else none

/-- Pane of the C6 witness: cursor 3 targets the child directory `b`. -/
def c6W : Context :=
  ⟨3, 0, ⟨10⟩, [],
    [⟨"a1", false⟩, ⟨"a2", false⟩, ⟨"a3", false⟩, ⟨"b", true⟩], []⟩

/-- Filesystem of the C6 witness: the root and its child `b` are readable. -/
def c6WFs : Fs := fun p =>
  if p = [] then some [⟨"a1", false⟩, ⟨"a2", false⟩, ⟨"a3", false⟩, ⟨"b", true⟩]
  else if p = ["b"] then some []
  else none

/-- Buffer used by the C10 witness. -/
def c10B : Buffer := ⟨7, 2, true, [(["x"], true)]⟩

/-- Pane used by the C10 witness, with `c10B` as the current buffer. -/
def c10W : Context := ⟨0, 0, ⟨10⟩, ["d"], [], [(["d"], c10B)]⟩

/-- A default pane for the C7 concrete states. -/
def c7Ctx : Context := ⟨0, 0, ⟨10⟩, [], [], []⟩

/-- The fixed four-pane set of the C7 concrete states. -/
def c7Views : Views := ⟨Mode.Normal, 0, "", [c7Ctx, c7Ctx, c7Ctx, c7Ctx]⟩

/-- A filesystem on which every read succeeds with an empty listing. -/
def c7Fs : Fs := fun _ => some []

/-- The clamping tail of `Context::cursor_down` (`let amount =
view.count().saturating_sub(1); if self.cursor > amount { self.cursor =
amount }`), as a standalone function for reasoning. -/
def clampStep (c : Context) : Context :=
  if c.cursor > c.view.length - 1 then
    ⟨c.view.length - 1, c.scroll, c.terminal_size, c.current_dir,
      c.directory, c.buffers⟩
  else c

/-- Pane of the C9 counterexample: cursor 2, scroll 5, viewport height 5. -/
def c9Ctx : Context := ⟨2, 5, ⟨8⟩, [], [⟨"a", false⟩], []⟩

/-- Pane at the very top for the C9 witness. -/
def c9W1 : Context := ⟨0, 0, ⟨10⟩, [], [⟨"a", false⟩], []⟩

/-- Pane with cursor 10 in a 12-entry listing for the C9 witness. -/
def c9W2 : Context :=
  ⟨10, 0, ⟨10⟩, [],
    [⟨"e1", false⟩, ⟨"e2", false⟩, ⟨"e3", false⟩, ⟨"e4", false⟩,
      ⟨"e5", false⟩, ⟨"e6", false⟩, ⟨"e7", false⟩, ⟨"e8", false⟩,
      ⟨"e9", false⟩, ⟨"e10", false⟩, ⟨"e11", false⟩, ⟨"e12", false⟩], []⟩

/-- Scrolled-down pane for the C9 witness of the upward paging branch. -/
def c9W3 : Context := ⟨2, 20, ⟨8⟩, [], [⟨"a", false⟩], []⟩

/-- One cursor-motion call of a C3 call sequence. -/
inductive CursorOp
  | up (amount : Nat)
  | down (amount : Nat)
  deriving DecidableEq

/-- Run a sequence of `cursor_up`/`cursor_down` calls; `none` as soon as a
`cursor_down` underflows. -/
def runCursorOps (c : Context) : List CursorOp → Option Context
  | [] => some c
  | CursorOp.up a :: ops => runCursorOps (c.cursor_up a) ops
  | CursorOp.down a :: ops =>
    match c.cursor_down a with
    | some c2 => runCursorOps c2 ops
    | none => none

/-- The pane invariant of §3 of the spec — the absolute position
`scroll + cursor` stays inside the (non-empty) listing — together with
`scroll` being a multiple of 10, which all cursor motion maintains. -/
def PaneInv (c : Context) : Prop :=
  c.scroll % 10 = 0 ∧ c.scroll + c.cursor < c.directory.length

instance (c : Context) : Decidable (PaneInv c) := by
  unfold PaneInv; infer_instance

/-- A motion is safe for viewport height `h` when any `cursor_down` amount
`a` satisfies `a + 9 ≤ h` (which rules the underflowing paging branch
out). -/
def downOk (h : Nat) : CursorOp → Bool
  | CursorOp.down a => decide (a + 9 ≤ h)
  | CursorOp.up _ => true

/-- Pane of the C3 counterexample: top of a one-entry listing, viewport
height 5 — a valid pane state. -/
def c3Ctx : Context := ⟨0, 0, ⟨8⟩, [], [⟨"a", false⟩], []⟩

/-- Pane of the C3 witness: five entries, viewport height 22. -/
def c3W : Context :=
  ⟨0, 0, ⟨25⟩, [],
    [⟨"e1", false⟩, ⟨"e2", false⟩, ⟨"e3", false⟩, ⟨"e4", false⟩,
      ⟨"e5", false⟩], []⟩

/-- Call sequence of the C3 witness (the amounts the program itself uses). -/
def c3WOps : List CursorOp := [CursorOp.down 10, CursorOp.down 1, CursorOp.up 1]

theorem charsLe_total (as bs : List Char) :
    charsLe as bs = true ∨ charsLe bs as = true := by
  induction as generalizing bs with
  | nil => exact Or.inl rfl
  | cons a as ih =>
    cases bs with
    | nil => exact Or.inr rfl
    | cons b bs =>
      by_cases hab : a.toNat < b.toNat
      · exact Or.inl (by simp [charsLe, hab])
      · by_cases hba : b.toNat < a.toNat
        · exact Or.inr (by simp [charsLe, hba, Nat.lt_asymm hba])
        · rcases ih bs with h | h
          · exact Or.inl (by simp [charsLe, hab, hba, h])
          · exact Or.inr (by simp [charsLe, hab, hba, h])

theorem charsLe_trans {as bs cs : List Char} (h1 : charsLe as bs = true)
    (h2 : charsLe bs cs = true) : charsLe as cs = true := by
  induction as generalizing bs cs with
  | nil => rfl
  | cons a as ih =>
    cases bs with
    | nil => simp [charsLe] at h1
    | cons b bs =>
      cases cs with
      | nil => simp [charsLe] at h2
      | cons c cs =>
        simp only [charsLe] at h1 h2 ⊢
        split_ifs at h1 h2 ⊢ with g1 g2 g3 g4 g5 g6 <;>
          first
            | rfl
            | omega
            | (exact ih h1 h2)

instance : IsTotal Entry byName := ⟨fun a b => charsLe_total a.name.data b.name.data⟩

instance : IsTrans Entry byName := ⟨fun _ _ _ h h2 => charsLe_trans h h2⟩

theorem boolLe_total (x y : Bool) : boolLe x y = true ∨ boolLe y x = true := by
  cases x <;> cases y <;> simp [boolLe]

theorem boolLe_trans {x y z : Bool} (h1 : boolLe x y = true)
    (h2 : boolLe y z = true) : boolLe x z = true := by
  cases x <;> cases y <;> cases z <;> simp_all [boolLe]

instance : IsTotal Entry byNotHidden :=
  ⟨fun a b => boolLe_total (entry_not_hidden a) (entry_not_hidden b)⟩

instance : IsTrans Entry byNotHidden := ⟨fun _ _ _ h h2 => boolLe_trans h h2⟩

instance : IsTotal Entry byNotDir := ⟨fun a b => boolLe_total (!a.is_dir) (!b.is_dir)⟩

instance : IsTrans Entry byNotDir := ⟨fun _ _ _ h h2 => boolLe_trans h h2⟩

section StableSortLemmas

variable {α : Type} {le : α → α → Prop} [DecidableRel le]

open List

/-- Inserting an element that is `le` everything in the list puts it in
front. -/
theorem orderedInsert_of_forall_le {x : α} {m : List α}
    (h : ∀ z ∈ m, le x z) : m.orderedInsert le x = x :: m := by
  cases m with
  | nil => rfl
  | cons z m => exact List.orderedInsert_of_le le m (h z (by simp))

/-- `orderedInsert` preserves any `Pairwise S` provided the inserted element
relates correctly to the elements it lands among. -/
theorem pairwise_orderedInsert (S : α → α → Prop) [IsTrans α le]
    (hS : ∀ a b, S a b → le a b) (x : α) :
    ∀ m : List α, m.Pairwise S → (∀ y ∈ m, le x y → S x y) →
      (∀ y ∈ m, ¬ le x y → S y x) →
      (m.orderedInsert le x).Pairwise S := by
  intro m
  induction m with
  | nil => intro _ _ _; simp
  | cons y m ih =>
    intro hm h1 h2
    rw [List.orderedInsert]
    by_cases hxy : le x y
    · rw [if_pos hxy]
      refine List.Pairwise.cons ?_ hm
      intro z hz
      rcases List.mem_cons.mp hz with rfl | hz
      · exact h1 z (by simp) hxy
      · have hyz : S y z := (List.pairwise_cons.mp hm).1 z hz
        exact h1 z (by simp [hz]) (Trans.trans hxy (hS _ _ hyz))
    · rw [if_neg hxy]
      refine List.Pairwise.cons ?_ ?_
      · intro z hz
        rcases (List.mem_orderedInsert le).mp hz with rfl | hz
        · exact h2 y (by simp) hxy
        · exact (List.pairwise_cons.mp hm).1 z hz
      · exact ih (List.pairwise_cons.mp hm).2
          (fun z hz => h1 z (by simp [hz])) (fun z hz => h2 z (by simp [hz]))

/-- Stability of `insertionSort`, refined: sorting a list that is `Pairwise r`
produces a list that is sorted by `le` and, among `le`-ties, still
`Pairwise r`. -/
theorem pairwise_insertionSort_stable (r : α → α → Prop) [IsTotal α le]
    [IsTrans α le] :
    ∀ l : List α, l.Pairwise r →
      (l.insertionSort le).Pairwise fun a b => le a b ∧ (le b a → r a b) := by
  intro l
  induction l with
  | nil => intro _; simp
  | cons x l ih =>
    intro hl
    rw [List.insertionSort]
    refine pairwise_orderedInsert _ (fun a b h => h.1) x _
      (ih (List.pairwise_cons.mp hl).2) ?_ ?_
    · intro y hy hxy
      refine ⟨hxy, fun _ => ?_⟩
      exact (List.pairwise_cons.mp hl).1 y ((List.perm_insertionSort le l).mem_iff.mp hy)
    · intro y hy hxy
      rcases total_of le x y with h | h
      · exact absurd h hxy
      · exact ⟨h, fun h2 => absurd h2 hxy⟩

/-- Filtering commutes with `orderedInsert` into a sorted list when the
inserted element is kept by the filter. -/
theorem filter_orderedInsert_pos [IsTrans α le] (p : α → Bool) (x : α)
    (hx : p x = true) :
    ∀ m : List α, m.Sorted le →
      (m.orderedInsert le x).filter p = (m.filter p).orderedInsert le x := by
  intro m
  induction m with
  | nil => simp [hx]
  | cons y m ih =>
    intro hm
    rw [List.orderedInsert]
    by_cases hxy : le x y
    · rw [if_pos hxy]
      by_cases hy : p y = true
      · simp [List.filter_cons, hx, hy, List.orderedInsert, hxy]
      · have hall : ∀ z ∈ m.filter p, le x z := by
          intro z hz
          have hz2 : z ∈ m := List.mem_of_mem_filter hz
          exact Trans.trans hxy (List.rel_of_sorted_cons hm z hz2)
        simp [List.filter_cons, hx, hy, orderedInsert_of_forall_le hall]
    · rw [if_neg hxy]
      by_cases hy : p y = true
      · simp only [List.filter_cons, hy, if_pos, ih hm.of_cons,
          List.orderedInsert, if_neg hxy]
      · simp [List.filter_cons, hy, ih hm.of_cons]

/-- Inserting an element that the filter drops leaves the filtered list
unchanged. -/
theorem filter_orderedInsert_neg (p : α → Bool) (x : α) (hx : p x = false) :
    ∀ m : List α, (m.orderedInsert le x).filter p = m.filter p := by
  intro m
  induction m with
  | nil => simp [hx]
  | cons y m ih =>
    rw [List.orderedInsert]
    by_cases hxy : le x y
    · rw [if_pos hxy, List.filter_cons_of_neg (by simp [hx])]
    · rw [if_neg hxy]
      by_cases hy : p y = true
      · rw [List.filter_cons_of_pos (by simp [hy]),
          List.filter_cons_of_pos (by simp [hy]), ih]
      · rw [List.filter_cons_of_neg (by simp [hy]),
          List.filter_cons_of_neg (by simp [hy]), ih]

/-- A stable sort commutes with filtering. -/
theorem filter_insertionSort [IsTotal α le] [IsTrans α le] (p : α → Bool) :
    ∀ l : List α, (l.insertionSort le).filter p = (l.filter p).insertionSort le := by
  intro l
  induction l with
  | nil => simp
  | cons x l ih =>
    rw [List.insertionSort]
    by_cases hx : p x = true
    · rw [filter_orderedInsert_pos p x hx _ (List.sorted_insertionSort le l), ih,
        List.filter_cons_of_pos (by simp [hx]), List.insertionSort]
    · rw [filter_orderedInsert_neg p x (by simp_all), ih,
        List.filter_cons_of_neg (by simp_all)]

end StableSortLemmas

/-- C1 (amended): for every directory contents and `show_hidden` flag, the
sequence produced by `Context::read` places every directory-entry before
every file-entry; within each of those two groups every HIDDEN entry (name
beginning with `.`) precedes every non-hidden entry; and within each of
those sub-groups names are in byte-wise lexicographic order.  (The spec has
the hidden/non-hidden direction backwards: the second sorting pass orders by
the key `entry_not_hidden`, and `false` — hidden — sorts first.) -/
theorem c1_read_ordering_amended (sh : Bool) (raw : List Entry) :
    (readEntries sh raw).Pairwise entryOrder := by
  have h1 : ((raw.filter fun e => entry_not_hidden e || sh
      ).insertionSort byName).Pairwise byName :=
    List.sorted_insertionSort byName _
  have h2 := @pairwise_insertionSort_stable Entry byNotHidden _ byName _ _ _ h1
  have h3 := @pairwise_insertionSort_stable Entry byNotDir _ _ _ _ _ h2
  exact h3

/-- C1 counterexample: on Scenario A of the spec with `show_hidden = true`,
the produced sequence is `[.git/, src/, .env, README.md]`, which violates
the claimed "non-hidden before hidden within each group" ordering
(`.git` precedes `src`, `.env` precedes `README.md`). -/
theorem c1_read_ordering_counterexample :
    ¬ (readEntries true scenarioA).Pairwise specEntryOrder := by decide

/-- C4 (confirmed): with `show_hidden = false` no entry whose name starts
with `.` appears in the output of `Context::read`; with `show_hidden = true`
every raw entry appears (the output is a permutation of the raw listing);
and restricting the `show_hidden = true` sequence to its non-hidden entries
yields exactly the `show_hidden = false` sequence, so the relative ordering
of the non-hidden entries is the same in both. -/
theorem c4_filter_invariant (raw : List Entry) :
    (∀ e ∈ readEntries false raw, entry_not_hidden e = true) ∧
    (readEntries true raw).Perm raw ∧
    (readEntries true raw).filter entry_not_hidden = readEntries false raw := by
  refine ⟨?_, ?_, ?_⟩
  · intro e he
    rw [readEntries] at he
    simp only [List.mem_insertionSort] at he
    have := List.of_mem_filter he
    simpa using this
  · rw [readEntries]
    refine ((List.perm_insertionSort _ _).trans ?_)
    refine ((List.perm_insertionSort _ _).trans ?_)
    refine ((List.perm_insertionSort _ _).trans ?_)
    simp
  · rw [readEntries, readEntries]
    rw [filter_insertionSort, filter_insertionSort, filter_insertionSort]
    congr 1
    congr 1
    congr 1
    simp [List.filter_filter]

theorem clamp_cursor_eq (c : Context) :
    c.clamp_cursor = if c.target.isNone
      then ⟨(c.directory.take (c.height + 1)).length - 1, 0, c.terminal_size,
        c.current_dir, c.directory, c.buffers⟩
      else c := by
  rw [Context.clamp_cursor]
  split
  · simp [Context.view, Context.height]
  · rfl

/-- C5 (confirmed): `clamp_cursor` is idempotent — calling it twice in
immediate succession yields exactly the same pane state (cursor and scroll)
as calling it once, for every pane state. -/
theorem c5_clamp_idempotent (c : Context) :
    c.clamp_cursor.clamp_cursor = c.clamp_cursor := by
  rw [clamp_cursor_eq c]
  by_cases h : c.target.isNone
  · rw [if_pos h]
    set L := c.directory.take (c.height + 1) with hL
    rcases eq_or_ne L [] with hnil | hnil
    · have hd : c.directory = [] := by
        rcases hdd : c.directory with _ | ⟨x, xs⟩
        · rfl
        · rw [hL, hdd] at hnil; simp at hnil
      rw [clamp_cursor_eq]
      simp [Context.target, Context.view, Context.height, hd, hnil]
    · have hlen : L.length - 1 < L.length := by
        have : 0 < L.length := List.length_pos.mpr hnil
        omega
      have htar : (Context.target ⟨L.length - 1, 0, c.terminal_size,
          c.current_dir, c.directory, c.buffers⟩) =
            some (L.get ⟨L.length - 1, hlen⟩) := by
        show ((c.directory.drop 0).take _)[L.length - 1]? = _
        rw [List.drop_zero]
        show L[L.length - 1]? = _
        rw [List.getElem?_eq_getElem hlen]
        rfl
      rw [clamp_cursor_eq, htar]
      rfl
  · rw [if_neg h, clamp_cursor_eq, if_neg h]

theorem alookup_aupdate_self {β : Type} (l : List (FsPath × β)) (k : FsPath)
    (v : β) : alookup (aupdate l k v) k = some v := by
  induction l with
  | nil => simp [alookup, aupdate]
  | cons kv rest ih =>
    obtain ⟨k2, v2⟩ := kv
    by_cases h : k2 = k <;> simp [alookup, aupdate, h, ih]

theorem alookup_aupdate_ne {β : Type} (l : List (FsPath × β)) {k q : FsPath}
    (v : β) (h : q ≠ k) : alookup (aupdate l k v) q = alookup l q := by
  have hk : k ≠ q := fun hh => h hh.symm
  induction l with
  | nil => simp [alookup, aupdate, hk]
  | cons kv rest ih =>
    obtain ⟨k2, v2⟩ := kv
    by_cases h2 : k2 = k
    · subst h2
      simp [alookup, aupdate, hk]
    · by_cases h3 : k2 = q <;> simp [alookup, aupdate, h2, h3, h, ih]

theorem flip_flip_readback (b : Buffer) (p q : FsPath) :
    (alookup ((b.flip p).flip p).marked q).getD false
      = (alookup b.marked q).getD false := by
  rcases hm : alookup b.marked p with _ | m
  · simp only [Buffer.flip, hm]
    simp only [alookup_aupdate_self]
    by_cases hq : q = p
    · subst hq
      simp [alookup_aupdate_self, hm]
    · simp [alookup_aupdate_ne _ _ hq, hm]
  · simp only [Buffer.flip, hm]
    simp only [alookup_aupdate_self]
    by_cases hq : q = p
    · subst hq
      simp [alookup_aupdate_self, hm]
    · simp [alookup_aupdate_ne _ _ hq]

theorem flip_only_marked (b : Buffer) (p : FsPath) :
    (b.flip p).cursor = b.cursor ∧ (b.flip p).scroll = b.scroll ∧
      (b.flip p).show_hidden = b.show_hidden := by
  rcases hm : alookup b.marked p with _ | m <;>
    simp [Buffer.flip, hm]

/-- C10 (confirmed): flipping the mark of a path twice in the buffer of the
current directory restores the original marked state as observed through
`is_marked` (for that path and every other path), and a single flip leaves
the buffer's cursor, scroll and show_hidden fields unchanged — it only
touches the marked map. -/
theorem c10_flip_involution (c : Context) (b : Buffer) (p q : FsPath)
    (hb : alookup c.buffers c.current_dir = some b) :
    Context.is_marked
        { c with buffers := aupdate c.buffers c.current_dir ((b.flip p).flip p) } q
      = c.is_marked q ∧
    (b.flip p).cursor = b.cursor ∧ (b.flip p).scroll = b.scroll ∧
      (b.flip p).show_hidden = b.show_hidden := by
  refine ⟨?_, flip_only_marked b p⟩
  simp only [Context.is_marked, alookup_aupdate_self, hb]
  exact flip_flip_readback b p q

theorem save_buffer_current_dir (c : Context) :
    (c.save_buffer).current_dir = c.current_dir := by
  rcases h : alookup c.buffers c.current_dir with _ | b <;>
    simp [Context.save_buffer, h]

theorem save_buffer_directory (c : Context) :
    (c.save_buffer).directory = c.directory := by
  rcases h : alookup c.buffers c.current_dir with _ | b <;>
    simp [Context.save_buffer, h]

theorem save_buffer_lookup (c : Context) :
    ∃ mk, alookup (c.save_buffer).buffers c.current_dir
      = some ⟨c.cursor, c.scroll, c.show_hidden, mk⟩ := by
  rcases h : alookup c.buffers c.current_dir with _ | b <;>
    simp [Context.save_buffer, h, alookup_aupdate_self]

theorem save_buffer_lookup_ne (c : Context) {q : FsPath}
    (h : q ≠ c.current_dir) :
    alookup (c.save_buffer).buffers q = alookup c.buffers q := by
  rcases hm : alookup c.buffers c.current_dir with _ | b <;>
    simp [Context.save_buffer, hm, alookup_aupdate_ne _ _ h]

/-- C8 (confirmed): when the current target entry is not a directory (or
there is no target), `target_dir` fails, and the `Key::Right` handler
silently ignores the failure: the pane — current_dir, directory snapshot,
cursor and scroll — is returned entirely unchanged, with no error
propagated. -/
theorem c8_enter_file_noop (fs : Fs) (c : Context)
    (h : c.target.all (fun e => !e.is_dir) = true) :
    c.target_dir = none ∧ key_right fs c = (c, false) := by
  have ht : c.target_dir = none := by
    rcases htar : c.target with _ | e
    · simp [Context.target_dir, htar]
    · rw [htar] at h
      have h2 : e.is_dir = false := by simpa using h
      simp [Context.target_dir, htar, h2]
  refine ⟨ht, ?_⟩
  simp [key_right, ht]

/-- C8 witness: a concrete pane whose target is a file is left untouched by
the `Key::Right` handler. -/
theorem c8_enter_file_noop_witness :
    c8W.target.all (fun e => !e.is_dir) = true ∧
      (c8W.target_dir = none ∧ key_right fsNone c8W = (c8W, false)) :=
  ⟨by decide, c8_enter_file_noop fsNone c8W (by decide)⟩

/-- C2 (amended): when the directory read inside the `Key::Left` /
`Key::Right` navigation fails with an IoError, the pane's directory snapshot
is indeed left unchanged, but `current_dir` is NOT rolled back — it remains
at the attempted new path (the popped parent, resp. the pushed child) while
the error is propagated by `?` (terminating the session).  Navigation is not
all-or-nothing. -/
theorem c2_no_rollback_amended (fs : Fs) (c : Context) (name : String)
    (hleft : fs c.current_dir.dropLast = none)
    (hname : c.target_dir = some name)
    (hright : fs (c.current_dir ++ [name]) = none) :
    ((key_left fs c).1.directory = c.directory ∧
      (key_left fs c).1.current_dir = c.current_dir.dropLast ∧
      (key_left fs c).2 = true) ∧
    ((key_right fs c).1.directory = c.directory ∧
      (key_right fs c).1.current_dir = c.current_dir ++ [name] ∧
      (key_right fs c).2 = true) := by
  constructor
  · simp only [key_left, Context.read_directory, Context.read,
      save_buffer_current_dir, hleft, Option.map_none']
    simp [save_buffer_directory]
  · simp only [key_right, hname, Context.read_directory, Context.read,
      save_buffer_current_dir, hright, Option.map_none']
    simp [save_buffer_directory]

/-- C2 counterexample: with the parent directory unreadable, `Key::Left`
propagates the error while leaving `current_dir` at the popped path — the
pane's prior `current_dir` is NOT restored, contradicting the claimed
all-or-nothing rollback. -/
theorem c2_rollback_counterexample :
    (key_left c2Fs c2Ctx).2 = true ∧
      (key_left c2Fs c2Ctx).1.current_dir ≠ c2Ctx.current_dir := by decide

/-- C2 witness: the amended statement at a concrete pane and filesystem. -/
theorem c2_no_rollback_witness :
    ((key_left c2WFs c2W).1.directory = c2W.directory ∧
      (key_left c2WFs c2W).1.current_dir = c2W.current_dir.dropLast ∧
      (key_left c2WFs c2W).2 = true) ∧
    ((key_right c2WFs c2W).1.directory = c2W.directory ∧
      (key_right c2WFs c2W).1.current_dir = c2W.current_dir ++ ["b"] ∧
      (key_right c2WFs c2W).2 = true) :=
  c2_no_rollback_amended c2WFs c2W "b" (by decide) (by decide) (by decide)

theorem key_right_success (fs : Fs) (c : Context) (name : String)
    (l1 : List Entry) (htd : c.target_dir = some name)
    (h1 : fs (c.current_dir ++ [name]) = some l1) :
    (key_right fs c).1.current_dir = c.current_dir ++ [name] ∧
    ∀ q, q ≠ c.current_dir ++ [name] →
      alookup (key_right fs c).1.buffers q
        = alookup (c.save_buffer).buffers q := by
  simp only [key_right, htd, Context.read_directory, Context.read,
    save_buffer_current_dir, h1, Option.map_some']
  set c3 : Context := { c.save_buffer with
    current_dir := c.current_dir ++ [name],
    directory := readEntries (Context.show_hidden
      { c.save_buffer with current_dir := c.current_dir ++ [name] }) l1 } with hc3
  rcases hres : alookup c3.buffers c3.current_dir with _ | st
  · constructor
    · show (Context.restore_buffer c3).current_dir = _
      simp only [Context.restore_buffer, hres]
      rw [save_buffer_current_dir]
    · intro q hq
      show alookup (Context.restore_buffer c3).buffers q = _
      simp only [Context.restore_buffer, hres]
      rw [save_buffer_lookup_ne _ (by simpa using hq)]
  · constructor
    · show (Context.restore_buffer c3).current_dir = _
      simp only [Context.restore_buffer, hres]
    · intro q hq
      show alookup (Context.restore_buffer c3).buffers q = _
      simp only [Context.restore_buffer, hres]

theorem key_left_success (fs : Fs) (c : Context) (l2 : List Entry)
    (h2 : fs c.current_dir.dropLast = some l2) (st : Buffer)
    (hst : alookup (c.save_buffer).buffers c.current_dir.dropLast = some st) :
    (key_left fs c).1.cursor = st.cursor ∧
    (key_left fs c).1.scroll = st.scroll ∧
    (key_left fs c).1.current_dir = c.current_dir.dropLast := by
  simp only [key_left, Context.read_directory, Context.read,
    save_buffer_current_dir, h2, Option.map_some']
  simp only [Context.restore_buffer, hst]
  simp [save_buffer_current_dir]

/-- C6 (confirmed): a pane at directory A with cursor 3 and scroll 0 that
enters a child directory (`Key::Right`) and then leaves back to the parent
(`Key::Left`) gets cursor 3 and scroll 0 restored exactly, with
`current_dir` back at A — `save_buffer` records the viewport under the old
path on the way in, and `restore_buffer` reinstates it on the way back
(both reads succeeding, the parent's contents immaterial as long as they are
re-readable). -/
theorem c6_round_trip (fs : Fs) (c : Context) (b : String)
    (l1 l2 : List Entry)
    (hcur : c.cursor = 3) (hscr : c.scroll = 0)
    (htd : c.target_dir = some b)
    (h1 : fs (c.current_dir ++ [b]) = some l1)
    (h2 : fs c.current_dir = some l2) :
    (key_left fs (key_right fs c).1).1.cursor = 3 ∧
    (key_left fs (key_right fs c).1).1.scroll = 0 ∧
    (key_left fs (key_right fs c).1).1.current_dir = c.current_dir := by
  obtain ⟨mk, hsave⟩ := save_buffer_lookup c
  obtain ⟨hcd4, hbuf4⟩ := key_right_success fs c b l1 htd h1
  set c4 := (key_right fs c).1 with hc4
  have hne : c.current_dir ≠ c.current_dir ++ [b] := by simp
  have hdrop : c4.current_dir.dropLast = c.current_dir := by
    rw [hcd4]; simp
  have hlook4 : alookup c4.buffers c.current_dir
      = some ⟨c.cursor, c.scroll, c.show_hidden, mk⟩ := by
    rw [hbuf4 c.current_dir hne, hsave]
  have hlook5 : alookup (c4.save_buffer).buffers c4.current_dir.dropLast
      = some ⟨c.cursor, c.scroll, c.show_hidden, mk⟩ := by
    rw [hdrop, save_buffer_lookup_ne, hlook4]
    rw [hcd4]; exact hne
  have h2b : fs c4.current_dir.dropLast = some l2 := by rw [hdrop]; exact h2
  obtain ⟨e1, e2, e3⟩ := key_left_success fs c4 l2 h2b _ hlook5
  refine ⟨?_, ?_, ?_⟩
  · rw [e1, hcur]
  · rw [e2, hscr]
  · rw [e3, hdrop]

/-- C6 witness: the round trip at a concrete pane and filesystem. -/
theorem c6_round_trip_witness :
    (key_left c6WFs (key_right c6WFs c6W).1).1.cursor = 3 ∧
    (key_left c6WFs (key_right c6WFs c6W).1).1.scroll = 0 ∧
    (key_left c6WFs (key_right c6WFs c6W).1).1.current_dir = c6W.current_dir :=
  c6_round_trip c6WFs c6W "b" []
    [⟨"a1", false⟩, ⟨"a2", false⟩, ⟨"a3", false⟩, ⟨"b", true⟩]
    (by decide) (by decide) (by decide) (by decide) (by decide)

/-- C10 witness: the double flip at a concrete buffer, path and pane. -/
theorem c10_flip_involution_witness :
    alookup c10W.buffers c10W.current_dir = some c10B ∧
    (Context.is_marked { c10W with buffers := aupdate c10W.buffers c10W.current_dir ((c10B.flip ["x"]).flip ["x"]) } ["x"] = c10W.is_marked ["x"] ∧
      (c10B.flip ["x"]).cursor = c10B.cursor ∧
      (c10B.flip ["x"]).scroll = c10B.scroll ∧
        (c10B.flip ["x"]).show_hidden = c10B.show_hidden) :=
  ⟨by decide, c10_flip_involution c10W c10B ["x"] ["x"] (by decide)⟩

/-- C7 (amended): `Views::index` with an index inside the pane array sets the
active index and triggers a fresh directory read of the newly active pane
(replacing its directory snapshot on success, propagating the IoError with
the index already switched on failure); with an index outside the array it
PANICS — after having already set `self.index` — instead of failing closed
with an error and an unchanged active pane. -/
theorem c7_switch_amended (fs : Fs) (v : Views) (i : Nat) :
    (∀ c, v.contexts[i]? = some c →
      (∀ d, c.read fs = some d →
        Views.indexOp fs v i = SwitchResult.ok
          ⟨v.mode, i, v.command, v.contexts.set i { c with directory := d }⟩) ∧
      (c.read fs = none →
        Views.indexOp fs v i = SwitchResult.ioError
          ⟨v.mode, i, v.command, v.contexts⟩)) ∧
    (v.contexts.length ≤ i → Views.indexOp fs v i = SwitchResult.panicked) := by
  constructor
  · intro c hc
    constructor
    · intro d hd
      simp [Views.indexOp, hc, Context.read_directory, hd]
    · intro hd
      simp [Views.indexOp, hc, Context.read_directory, hd]
  · intro hlen
    simp [Views.indexOp, List.getElem?_eq_none hlen]

/-- C7 counterexample: switching the four-pane set to index 5 panics (raw
array indexing in `current_context`) after `self.index` has already been
assigned — it does not return an error/none with the active pane
unchanged. -/
theorem c7_switch_counterexample :
    Views.indexOp c7Fs c7Views 5 = SwitchResult.panicked := by decide

/-- C7 witness: the amended in-range behaviour at index 2 of the concrete
four-pane set. -/
theorem c7_switch_witness :
    Views.indexOp c7Fs c7Views 2 = SwitchResult.ok
      ⟨Mode.Normal, 2, "",
        c7Views.contexts.set 2 { c7Ctx with directory := readEntries false [] }⟩ :=
  (((c7_switch_amended c7Fs c7Views 2).1 c7Ctx (by decide)).1
    (readEntries false []) (by decide))

theorem cursor_down_eq (c : Context) (a : Nat) :
    c.cursor_down a =
      if c.cursor + a > c.height then
        if c.cursor < 10 then none
        else some (clampStep ⟨c.cursor - 10, c.scroll + 10, c.terminal_size,
          c.current_dir, c.directory, c.buffers⟩)
      else some (clampStep ⟨c.cursor + a, c.scroll, c.terminal_size,
        c.current_dir, c.directory, c.buffers⟩) := by
  rw [Context.cursor_down]
  split_ifs <;> rfl

theorem clampStep_eq (c : Context) :
    clampStep c = ⟨min c.cursor (c.view.length - 1), c.scroll,
      c.terminal_size, c.current_dir, c.directory, c.buffers⟩ := by
  rw [clampStep]
  split
  · have hm : min c.cursor (c.view.length - 1) = c.view.length - 1 := by
      rw [Nat.min_def, if_neg (by omega)]
    rw [hm]
  · have hm : min c.cursor (c.view.length - 1) = c.cursor := by
      rw [Nat.min_def, if_pos (by omega)]
    rw [hm]

theorem view_length_mk (k s : Nat) (t : Rect) (d : FsPath) (l : List Entry)
    (bf : List (FsPath × Buffer)) :
    (Context.view ⟨k, s, t, d, l, bf⟩).length
      = min (t.height - 3 + 1) (l.length - s) := by
  simp [Context.view, Context.height]

/-- C9 (amended): `cursor_up`/`cursor_down` move the cursor within the
visible window; when the movement would leave the window `cursor_down`
increases `scroll` by exactly 10 (never by `amount`) and `cursor_up`
decreases it by `min 10 scroll` (a `saturating_sub`, so by less than 10 when
`scroll < 10`); after `cursor_down` the cursor is within
`[0, viewport_height]` provided the paging branch does not underflow
(`10 ≤ cursor`); moving up at the very top (`cursor = 0, scroll = 0`) leaves
the state unchanged.  After `cursor_up`'s paging branch the cursor is
`cursor + 10`, which CAN exceed the viewport height — that part of the
original claim is dropped. -/
theorem c9_cursor_step_amended (c : Context) (a : Nat) :
    (c.cursor = 0 ∧ c.scroll = 0 → c.cursor_up a = c) ∧
    (c.cursor < a → 0 < c.scroll →
      c.cursor_up a = { c with scroll := c.scroll - 10, cursor := c.cursor + 10 }) ∧
    (¬ (c.cursor < a ∧ 0 < c.scroll) →
      c.cursor_up a = { c with cursor := c.cursor - a }) ∧
    (c.cursor + a ≤ c.height →
      c.cursor_down a
          = some { c with cursor := min (c.cursor + a) (c.view.length - 1) } ∧
        min (c.cursor + a) (c.view.length - 1) ≤ c.height) ∧
    (c.height < c.cursor + a → 10 ≤ c.cursor →
      ∃ c2, c.cursor_down a = some c2 ∧ c2.scroll = c.scroll + 10 ∧
        c2.cursor ≤ c.height) := by
  have hth : c.height = c.terminal_size.height - 3 := rfl
  refine ⟨?_, ?_, ?_, ?_, ?_⟩
  · rintro ⟨h1, h2⟩
    cases c
    simp_all [Context.cursor_up]
  · intro h1 h2
    rw [Context.cursor_up, if_pos ⟨h1, h2⟩]
  · intro h
    rw [Context.cursor_up, if_neg h]
  · intro h
    have hlen : c.view.length ≤ c.height + 1 := by
      have hv : c.view.length
          = (Context.view ⟨c.cursor, c.scroll, c.terminal_size, c.current_dir,
            c.directory, c.buffers⟩).length := rfl
      rw [hv, view_length_mk]
      omega
    constructor
    · rw [cursor_down_eq, if_neg (by omega), clampStep_eq]
      rfl
    · omega
  · intro h1 h2
    rw [cursor_down_eq, if_pos (by omega), if_neg (by omega), clampStep_eq]
    refine ⟨_, rfl, rfl, ?_⟩
    show min (c.cursor - 10)
      ((Context.view ⟨c.cursor - 10, c.scroll + 10, c.terminal_size,
        c.current_dir, c.directory, c.buffers⟩).length - 1) ≤ c.height
    rw [view_length_mk]
    omega

/-- C9 counterexample: `cursor_up(3)` at cursor 2, scroll 5 lands the cursor
at 12, far beyond the viewport height 5, and adjusts scroll by 5, not by the
claimed fixed step of exactly 10. -/
theorem c9_cursor_step_counterexample :
    (c9Ctx.cursor_up 3).cursor > c9Ctx.height ∧
      c9Ctx.scroll - (c9Ctx.cursor_up 3).scroll ≠ 10 := by decide

/-- C9 witness: each branch of the amended statement at a concrete pane. -/
theorem c9_cursor_step_witness :
    c9W1.cursor_up 1 = c9W1 ∧
    (c9W3.cursor_up 3
      = { c9W3 with scroll := c9W3.scroll - 10, cursor := c9W3.cursor + 10 }) ∧
    (c9W1.cursor_up 0 = { c9W1 with cursor := c9W1.cursor - 0 }) ∧
    (c9W1.cursor_down 2
        = some { c9W1 with cursor := min (c9W1.cursor + 2) (c9W1.view.length - 1) } ∧
      min (c9W1.cursor + 2) (c9W1.view.length - 1) ≤ c9W1.height) ∧
    (∃ c2, c9W2.cursor_down 1 = some c2 ∧ c2.scroll = c9W2.scroll + 10 ∧
      c2.cursor ≤ c9W2.height) := by
  refine ⟨?_, ?_, ?_, ?_, ?_⟩
  · exact (c9_cursor_step_amended c9W1 1).1 ⟨rfl, rfl⟩
  · exact (c9_cursor_step_amended c9W3 3).2.1 (by decide) (by decide)
  · exact (c9_cursor_step_amended c9W1 0).2.2.1 (by decide)
  · exact (c9_cursor_step_amended c9W1 2).2.2.2.1 (by decide)
  · exact (c9_cursor_step_amended c9W2 1).2.2.2.2 (by decide) (by decide)

theorem cursor_up_step (c : Context) (a : Nat) (h : PaneInv c) :
    PaneInv (c.cursor_up a) ∧ (c.cursor_up a).directory = c.directory ∧
      (c.cursor_up a).terminal_size = c.terminal_size := by
  obtain ⟨h10, hlen⟩ := h
  rw [Context.cursor_up]
  split
  case isTrue hc =>
    refine ⟨⟨?_, ?_⟩, rfl, rfl⟩
    · show (c.scroll - 10) % 10 = 0
      omega
    · show c.scroll - 10 + (c.cursor + 10) < c.directory.length
      omega
  case isFalse hc =>
    refine ⟨⟨?_, ?_⟩, rfl, rfl⟩
    · show c.scroll % 10 = 0
      exact h10
    · show c.scroll + (c.cursor - a) < c.directory.length
      omega

theorem cursor_down_step (c : Context) (a : Nat) (h : PaneInv c)
    (ha : a + 9 ≤ c.height) :
    ∃ c2, c.cursor_down a = some c2 ∧ PaneInv c2 ∧
      c2.directory = c.directory ∧ c2.terminal_size = c.terminal_size := by
  obtain ⟨h10, hlen⟩ := h
  have hth : c.height = c.terminal_size.height - 3 := rfl
  rw [cursor_down_eq]
  by_cases hbr : c.cursor + a > c.height
  · rw [if_pos hbr, if_neg (by omega), clampStep_eq]
    refine ⟨_, rfl, ⟨?_, ?_⟩, rfl, rfl⟩
    · show (c.scroll + 10) % 10 = 0
      omega
    · show c.scroll + 10 + min (c.cursor - 10)
        ((Context.view ⟨c.cursor - 10, c.scroll + 10, c.terminal_size,
          c.current_dir, c.directory, c.buffers⟩).length - 1) < c.directory.length
      rw [view_length_mk]
      omega
  · rw [if_neg hbr, clampStep_eq]
    refine ⟨_, rfl, ⟨?_, ?_⟩, rfl, rfl⟩
    · show c.scroll % 10 = 0
      exact h10
    · show c.scroll + min (c.cursor + a)
        ((Context.view ⟨c.cursor + a, c.scroll, c.terminal_size,
          c.current_dir, c.directory, c.buffers⟩).length - 1) < c.directory.length
      rw [view_length_mk]
      omega

/-- C3 (amended): starting from a pane satisfying the pane invariant (and
scroll a multiple of 10), any finite sequence of `cursor_up(amount)` /
`cursor_down(amount)` calls whose DOWN amounts all satisfy
`amount + 9 ≤ viewport_height` runs without underflow or panic and keeps the
absolute position `scroll + cursor` strictly below `directory.len()` (it can
never go negative, the values being unsigned).  Without the bound on the
down amounts, `cursor_down` underflows (see the counterexample). -/
theorem c3_cursor_bounds_amended (c : Context) (ops : List CursorOp)
    (hinv : PaneInv c) (hok : ops.all (downOk c.height) = true) :
    ∃ c2, runCursorOps c ops = some c2 ∧ PaneInv c2 := by
  induction ops generalizing c with
  | nil => exact ⟨c, rfl, hinv⟩
  | cons op ops ih =>
    rw [List.all_cons, Bool.and_eq_true] at hok
    cases op with
    | up a =>
      obtain ⟨hinv2, hdir, hterm⟩ := cursor_up_step c a hinv
      have hh : (c.cursor_up a).height = c.height := by
        rw [Context.height, Context.height, hterm]
      simp only [runCursorOps]
      exact ih (c.cursor_up a) hinv2 (by rw [hh]; exact hok.2)
    | down a =>
      have ha : a + 9 ≤ c.height := by
        have h1 := hok.1
        simp [downOk] at h1
        omega
      obtain ⟨c2, hc2, hinv2, hdir, hterm⟩ := cursor_down_step c a hinv ha
      have hh : c2.height = c.height := by
        rw [Context.height, Context.height, hterm]
      simp only [runCursorOps, hc2]
      exact ih c2 hinv2 (by rw [hh]; exact hok.2)

/-- C3 counterexample: from a pane satisfying the invariant, the single call
`cursor_down(6)` takes the paging branch with cursor 0 and `self.cursor -=
10` underflows — a panic in a checked build (in release the wrap is clamped
but scroll has jumped to 10, past `directory.len()-1 = 0`). -/
theorem c3_cursor_bounds_counterexample :
    PaneInv c3Ctx ∧ c3Ctx.cursor ≤ c3Ctx.height ∧
      runCursorOps c3Ctx [CursorOp.down 6] = none := by decide

/-- C3 witness: the amended bound at a concrete pane and call sequence. -/
theorem c3_cursor_bounds_witness :
    ∃ c2, runCursorOps c3W c3WOps = some c2 ∧ PaneInv c2 :=
  c3_cursor_bounds_amended c3W c3WOps (by decide) (by decide)
